import Mathlib

/-!
Shallow embedding of the Rose-Rocket Google-Apps-Script client library.

The definitions below are translated from the JavaScript sources:
* `getAccessTokenForInstance` from manifest_putpayment.js (token cache),
* `searchOrders` / its pagination loop from orders_search.js,
* `findOrdersByContainerId` from manifest_equipment.gs.js (retry loop),
* `doPost` from the webhook receiver (src/unnamed/part_001).

External effects are made explicit: the network is an oracle passed as a
function argument, the process-wide token cache is threaded as state, and
`Date.now()` is a parameter.  Machine integers are modelled as `Int`
(JavaScript numbers in this code are small integers: epoch millis, HTTP
status codes, offsets, counts).  JavaScript truthiness is modelled
explicitly where the code branches on it.
-/

namespace RoseRocket

/-! ### JavaScript value model (for the webhook payload) -/

/-- A JSON-like JavaScript value, as produced by a successful JSON.parse. -/
inductive JsVal : Type
| nullv : JsVal
| boolv : Bool → JsVal
| numv : Int → JsVal
| strv : String → JsVal
| arr : List JsVal → JsVal
| obj : List (String × JsVal) → JsVal

/-- Property lookup in an object field list (first matching key). -/
def lookupField : List (String × JsVal) → String → Option JsVal
| [], _ => none
| (k2, v) :: rest, k => if k2 = k then some v else lookupField rest k

/-- JavaScript property access `v.k`: `some` when the property is present,
`none` standing for `undefined` (absent property, or access on a
non-object primitive in the places this code performs it). -/
def getField : JsVal → String → Option JsVal
| JsVal.obj fs, k => lookupField fs k
| _, _ => none

/-- JavaScript truthiness of a value. -/
def truthyV : JsVal → Bool
| JsVal.nullv => false
| JsVal.boolv b => b
| JsVal.numv n => decide (n ≠ 0)
| JsVal.strv s => decide (s ≠ "")
| JsVal.arr _ => true
| JsVal.obj _ => true

/-- Truthiness of a possibly-`undefined` value (`none` = `undefined`). -/
def truthyO : Option JsVal → Bool
| none => false
| some v => truthyV v

/-- Strict string equality test `v === s` for a value against a string
literal (JavaScript `===` on a string literal is true only for an equal
string). -/
def isStr (v : JsVal) (s : String) : Bool :=
  match v with
  | JsVal.strv t => decide (t = s)
  | _ => false

/-! ### Webhook receiver `doPost` (src/unnamed/part_001) -/

/-- The request body as seen through `e.postData.contents` followed by
`JSON.parse`: either falsy contents (absent or empty string), contents
that fail to parse (JSON.parse throws, caught by the inner try), or a
parsed payload value. -/
inductive PostContents : Type
| missing : PostContents
| invalidJson : PostContents
| valid : JsVal → PostContents

/-- The Apps-Script event object: `postData` may be absent. -/
structure EventObj : Type where
  postData : Option PostContents

/-- Failure response object `{success:false, error:msg}`. -/
def errResp (msg : String) : JsVal :=
  JsVal.obj [("success", JsVal.boolv false), ("error", JsVal.strv msg)]

/-- Failure response with one extra echoed field. -/
def errRespWith (msg : String) (k : String) (v : JsVal) : JsVal :=
  JsVal.obj [("success", JsVal.boolv false), ("error", JsVal.strv msg), (k, v)]

/-- Success response `{success:true, data:{current_status, order_id}}`. -/
def successResp (cs oid : JsVal) : JsVal :=
  JsVal.obj [("success", JsVal.boolv true),
    ("data", JsVal.obj [("current_status", cs), ("order_id", oid)])]

/-- The webhook receiver.  Returns the object the source passes to
`JSON.stringify` inside `ContentService.createTextOutput`.  The function
is total: every branch of the source returns a response (the outer
try/catch guarantees this in the source). -/
def doPost (e : Option EventObj) : JsVal :=
  match e with
  | none => errResp "Missing postData"
  | some ev =>
    match ev.postData with
    | none => errResp "Missing postData"
    | some PostContents.missing => errResp "Missing postData"
    | some PostContents.invalidJson => errResp "Invalid JSON payload"
    | some (PostContents.valid payload) =>
      match getField payload "event", getField payload "current_status",
            getField payload "order_id" with
      | some evt, some cs, some oid =>
        if truthyV evt && truthyV cs && truthyV oid then
          if !(isStr evt "order.status_updated") then
            errRespWith "Incorrect event type" "event" evt
          else if !(isStr cs "in-transit") then
            errRespWith "Incorrect status" "status" cs
          else successResp cs oid
        else errResp "Missing required fields"
      | _, _, _ => errResp "Missing required fields"

/-- The acceptance condition of the webhook, read off the claim: postData
contents parse as JSON, the payload has `event` strictly equal to
"order.status_updated", `current_status` strictly equal to "in-transit",
and a truthy `order_id` (those string equalities make `event` and
`current_status` truthy on their own). -/
def webhookAccepts (e : Option EventObj) : Bool :=
  match e with
  | some ⟨some (PostContents.valid p)⟩ =>
    (match getField p "event" with
     | some v => isStr v "order.status_updated"
     | none => false)
    && (match getField p "current_status" with
        | some v => isStr v "in-transit"
        | none => false)
    && truthyO (getField p "order_id")
  | _ => false

/-! ### Token cache `getAccessTokenForInstance` (manifest_putpayment.js) -/

/-- One cached entry of the process-wide `ACCESS_TOKEN` map:
`{ token, expires_at }`. -/
structure TokenEntry : Type where
  token : String
  expiresAt : Int

/-- A per-instance credential bundle, as destructured from
`instanceManager.getConfig(instanceName)`.  The credential values only
feed the request payload; their presence is what the control flow
depends on. -/
structure InstanceConfig : Type where
  username : String
  password : String
  clientId : String
  clientSecret : String

/-- The parsed body of the identity-endpoint response, as accessed by
`jsonResponse.data.access_token` / `jsonResponse.data.expires_in`:
`invalid` = JSON.parse throws; `noData` = no `data` object, so the
property access throws a TypeError (caught by the outer try); otherwise
the two fields, each possibly absent. -/
inductive ExchangeBody : Type
| invalid : ExchangeBody
| noData : ExchangeBody
| withData : Option String → Option Int → ExchangeBody

/-- Behaviour of the identity endpoint if it is called: the fetch either
throws (network error) or yields a status code and a body. -/
inductive ExchangeResp : Type
| netError : ExchangeResp
| http : Int → ExchangeBody → ExchangeResp

/-- Outcome of `getAccessTokenForInstance`: a token, `null`, or an
uncaught exception escaping the function. -/
inductive TokenResult : Type
| ok : String → TokenResult
| nullToken : TokenResult
| thrown : TokenResult

/-- Truthiness of the `access_token` field (absent or empty string is
falsy). -/
def truthyStr : Option String → Bool
| none => false
| some s => decide (s ≠ "")

/-- Truthiness of the `expires_in` field (absent or 0 is falsy). -/
def truthyNum : Option Int → Bool
| none => false
| some n => decide (n ≠ 0)

/-- The process-wide `ACCESS_TOKEN` map. -/
def Cache : Type := String → Option TokenEntry

/-- Overwrite one cache entry (`ACCESS_TOKEN[instanceName] = {...}`). -/
def cachePut (c : Cache) (inst : String) (e : TokenEntry) : Cache :=
  fun i => if i = inst then some e else c i

/-- The token-exchange path of `getAccessTokenForInstance`: the POST to
the identity endpoint plus the handling of its response (the try block
of the source).  Returns (result, new cache, 1 network call made). -/
def getAccessTokenExchange (resp : ExchangeResp) (cache : Cache) (now : Int)
    (instanceName : String) : TokenResult × Cache × Nat :=
  match resp with
  | ExchangeResp.netError => (TokenResult.nullToken, cache, 1)
  | ExchangeResp.http code body =>
    if 200 ≤ code ∧ code < 300 then
      match body with
      | ExchangeBody.invalid => (TokenResult.nullToken, cache, 1)
      | ExchangeBody.noData => (TokenResult.nullToken, cache, 1)
      | ExchangeBody.withData accessToken expiresIn =>
        if truthyStr accessToken && truthyNum expiresIn then
          let entry : TokenEntry :=
            { token := accessToken.getD ""
              expiresAt := now + expiresIn.getD 0 * 1000 }
          (TokenResult.ok entry.token, cachePut cache instanceName entry, 1)
        else (TokenResult.nullToken, cache, 1)
    else (TokenResult.nullToken, cache, 1)

/-- `getAccessTokenForInstance(instanceName)` from manifest_putpayment.js.

Arguments: `getConfig` models `instanceManager.getConfig` (returns `null`
= `none` for an unknown instance); `resp` is what the identity endpoint
would answer if called; `cache` is the current `ACCESS_TOKEN` map; `now`
is `Date.now()`.

Returns (result, new cache, number of token-exchange network calls).

Source-faithful points: the config destructuring happens first and is
NOT inside the try block, so a `none` config makes the destructuring
throw a TypeError that escapes (`TokenResult.thrown`); the cache hit
test is `entry && entry.token && entry.expires_at > Date.now()`; within
the exchange, every failure (network throw, parse throw, missing data
object, falsy access_token or expires_in, non-2xx code) returns `null`
and leaves the cache untouched. -/
def getAccessTokenForInstance (getConfig : String → Option InstanceConfig)
    (resp : ExchangeResp) (cache : Cache) (now : Int) (instanceName : String) :
    TokenResult × Cache × Nat :=
  match getConfig instanceName with
  | none => (TokenResult.thrown, cache, 0)
  | some _ =>
    match cache instanceName with
    | some e =>
      if e.token ≠ "" ∧ now < e.expiresAt then
        (TokenResult.ok e.token, cache, 0)
      else
        getAccessTokenExchange resp cache now instanceName
    | none => getAccessTokenExchange resp cache now instanceName

/-! ### Paginated order search `searchOrders` (orders_search.js) -/

/-- One parsed page response of the list endpoint, as the loop reads it:
the HTTP status code, the `total` field (`none` = absent or not a
number), and the `orders` field (`none` = absent or falsy). -/
structure PageResp (α : Type) : Type where
  code : Int
  total : Option Int
  orders : Option (List α)

/-- Final outcome of the pagination loop: the accumulated records
(`searchOrders` returns the array), `null` after a non-200 response, or
the fuel ran out (a model artifact standing for a run longer than the
given bound; the source loop itself has no bound). -/
inductive SearchOutcome (α : Type) : Type
| ok : List α → SearchOutcome α
| apiError : Int → SearchOutcome α
| fuelOut : SearchOutcome α

/-- The page size constant `limit = 50` of searchOrders. -/
def searchLimit : Nat := 50

/-- The do/while pagination loop of `searchOrders`, with the server as an
oracle from offset to page response.  State: remaining fuel, `offset`,
`allOrders` accumulated so far, and `totalOrders` (initially 0 in the
source).  Returns the outcome together with the list of offsets at which
page requests were issued, in order.

Source-faithful points, in source order per iteration:
* a response code other than exactly 200 returns `null` at once;
* `totalOrders` is updated only when the response `total` is present,
  numeric and truthy (so a literal `total: 0` is kept out by `!total`);
* an absent or empty `orders` array breaks out returning `allOrders`;
* after appending, the loop breaks when `allOrders.length >= totalOrders`,
  then increments `offset` by 50 and breaks when `offset >= totalOrders`;
* the do/while condition `allOrders.length < totalOrders` always holds
  when reached, so continuing unconditionally is faithful. -/
def searchLoop {α : Type} (server : Nat → PageResp α) :
    Nat → Nat → List α → Int → SearchOutcome α × List Nat
| 0, _, _, _ => (SearchOutcome.fuelOut, [])
| Nat.succ fuel, offset, allOrders, totalOrders =>
  let r := server offset
  if r.code = 200 then
    let total2 : Int :=
      match r.total with
      | some t => if t = 0 then totalOrders else t
      | none => totalOrders
    match r.orders with
    | none => (SearchOutcome.ok allOrders, [offset])
    | some os =>
      if os.isEmpty then (SearchOutcome.ok allOrders, [offset])
      else
        let acc2 := allOrders ++ os
        if total2 ≤ (acc2.length : Int) then (SearchOutcome.ok acc2, [offset])
        else if total2 ≤ ((offset + searchLimit : Nat) : Int) then
          (SearchOutcome.ok acc2, [offset])
        else
          let rest := searchLoop server fuel (offset + searchLimit) acc2 total2
          (rest.1, offset :: rest.2)
  else (SearchOutcome.apiError r.code, [offset])

/-- `searchOrders(queryParams, instance)`: validates the instance against
the `Instance` enum (returning `null` = `none` for an invalid one), then
runs the pagination loop from offset 0 with an empty accumulator and
`totalOrders = 0`.  The query parameters and bearer token only shape the
URL/headers; the control flow the claims concern is the loop, driven by
the server oracle. -/
def searchOrders {α : Type} (inst : String) (server : Nat → PageResp α)
    (fuel : Nat) : Option (SearchOutcome α × List Nat) :=
  if inst = "Amado" ∨ inst = "Sonot" then
    some (searchLoop server fuel 0 [] 0)
  else none

/-! ### Retry loop `findOrdersByContainerId` (manifest_equipment.gs.js) -/

/-- The parsed body of a 2xx search response: `result.data` may be
absent; when present it carries `total` (possibly absent) and `orders`
(possibly absent/falsy). -/
structure RetryData (α : Type) : Type where
  total : Option Int
  orders : Option (List α)

/-- Body of a response as consumed on the 2xx path: JSON.parse may throw
(`invalid`, caught by the catch block which then retries), or yield a
value whose `data` field may be absent. -/
inductive RetryBody (α : Type) : Type
| invalid : RetryBody α
| parsed : Option (RetryData α) → RetryBody α

/-- One attempt outcome: the fetch throws, or returns a status code and
body. -/
inductive AttemptOutcome (α : Type) : Type
| throw : AttemptOutcome α
| resp : Int → RetryBody α → AttemptOutcome α

/-- The `result.data && result.data.total > 0` test (an absent total
compares as `undefined > 0`, which is false). -/
def retryTotalPos {α : Type} (d : RetryData α) : Bool :=
  match d.total with
  | some t => decide (0 < t)
  | none => false

/-- The for-loop of `findOrdersByContainerId`, attempts numbered from
`attempt`, with `remaining` iterations left (`remaining` is
`maxRetries - attempt + 1` at the top call; the element of recursion).
`outcomes n` is what the fetch at attempt `n` does.  Returns the result
(`none` = `null`) and the number of HTTP calls made.

Per iteration, in source order: a throw is caught and the loop moves on
(return `null` after the last attempt); on a 2xx code an unparseable
body throws into the same catch, otherwise the parsed data decides the
returned array; on a 5xx code with attempts left the loop sleeps and
retries; any other situation (4xx, 3xx, or a 5xx on the final attempt)
returns `null` at once. -/
def findOrdersRetryLoop {α : Type} (outcomes : Nat → AttemptOutcome α)
    (maxRetries : Nat) : Nat → Nat → Option (List α) × Nat
| _, 0 => (none, 0)
| attempt, Nat.succ remaining =>
  match outcomes attempt with
  | AttemptOutcome.throw =>
    let rest := findOrdersRetryLoop outcomes maxRetries (attempt + 1) remaining
    (rest.1, rest.2 + 1)
  | AttemptOutcome.resp code body =>
    if 200 ≤ code ∧ code < 300 then
      match body with
      | RetryBody.invalid =>
        let rest := findOrdersRetryLoop outcomes maxRetries (attempt + 1) remaining
        (rest.1, rest.2 + 1)
      | RetryBody.parsed dataField =>
        match dataField with
        | some d =>
          if retryTotalPos d then (some (d.orders.getD []), 1) else (some [], 1)
        | none => (some [], 1)
    else if 500 ≤ code ∧ attempt < maxRetries then
      let rest := findOrdersRetryLoop outcomes maxRetries (attempt + 1) remaining
      (rest.1, rest.2 + 1)
    else (none, 1)

/-- The subdomain configuration consulted by `findOrdersByContainerId`
via `instanceManager2.getConfig` (`config && config.subdomain`). -/
structure EqConfig : Type where
  subdomain : Option String

/-- `findOrdersByContainerId(instanceName, containerId)`: a falsy access
token or a missing config/subdomain returns `null` with no search call;
otherwise the retry loop runs with `maxRetries = 3` starting at attempt
1.  Returns (result, number of search HTTP calls). -/
def findOrdersByContainerId {α : Type} (accessToken : Option String)
    (config : Option EqConfig) (outcomes : Nat → AttemptOutcome α) :
    Option (List α) × Nat :=
  if truthyStr accessToken then
    match config with
    | some cfg =>
      if truthyStr cfg.subdomain then
        findOrdersRetryLoop outcomes 3 1 3
      else (none, 0)
    | none => (none, 0)
  else (none, 0)

/-! ## Theorems -/

/-- A value strictly equal to a nonempty string literal is truthy. -/
lemma truthyV_of_isStr {v : JsVal} {s : String} (h : isStr v s = true)
    (hs : s ≠ "") : truthyV v = true := by
  cases v with
  | strv t =>
    have ht : t = s := by simpa [isStr] using h
    subst ht
    simp [truthyV, hs]
  | nullv => simp [isStr] at h
  | boolv b => simp [isStr] at h
  | numv n => simp [isStr] at h
  | arr xs => simp [isStr] at h
  | obj fs => simp [isStr] at h

/-- The `success` field of a failure response. -/
lemma getField_errResp_success (msg : String) :
    getField (errResp msg) "success" = some (JsVal.boolv false) := rfl

/-- The `error` field of a failure response. -/
lemma getField_errResp_error (msg : String) :
    getField (errResp msg) "error" = some (JsVal.strv msg) := rfl

/-- The `success` field of a failure response with an echoed field. -/
lemma getField_errRespWith_success (msg k : String) (v : JsVal) :
    getField (errRespWith msg k v) "success" = some (JsVal.boolv false) := rfl

/-- The `error` field of a failure response with an echoed field. -/
lemma getField_errRespWith_error (msg k : String) (v : JsVal) :
    getField (errRespWith msg k v) "error" = some (JsVal.strv msg) := rfl

/-- The `success` field of the success response. -/
lemma getField_successResp_success (cs oid : JsVal) :
    getField (successResp cs oid) "success" = some (JsVal.boolv true) := rfl

/-- C9: for every incoming request event object — including a missing or
empty postData, a body that is not valid JSON, missing required fields, a
wrong event type, or a wrong status — `doPost` returns normally (it is a
total function of the request, every branch producing a response object)
and the response carries a boolean `success` field; no branch produces a
non-200 outcome (every branch is a `createTextOutput` response). -/
theorem doPost_always_returns_boolean_success (e : Option EventObj) :
    ∃ b : Bool, getField (doPost e) "success" = some (JsVal.boolv b) := by
  rcases e with _ | ⟨pd⟩
  · exact ⟨false, rfl⟩
  rcases pd with _ | pc
  · exact ⟨false, rfl⟩
  rcases pc with _ | _ | payload
  · exact ⟨false, rfl⟩
  · exact ⟨false, rfl⟩
  rcases hev : getField payload "event" with _ | evt <;>
    rcases hcs : getField payload "current_status" with _ | cs <;>
      rcases hoid : getField payload "order_id" with _ | oid <;>
        simp only [doPost, hev, hcs, hoid] <;>
          first
            | exact ⟨false, rfl⟩
            | (split_ifs <;>
                first
                  | exact ⟨false, rfl⟩
                  | exact ⟨true, rfl⟩)

/-- C10: `doPost` responds with `success:true` exactly when the request
carries parseable JSON whose `event` is strictly "order.status_updated",
whose `current_status` is strictly "in-transit" and whose `order_id` is
truthy (such `event`/`current_status` values are automatically truthy);
in that case the `data` object echoes exactly the fields
`current_status` and `order_id`, and in every other case the response has
`success:false` together with an `error` field. -/
theorem doPost_success_iff_accepts (e : Option EventObj) :
    (getField (doPost e) "success" = some (JsVal.boolv true) ↔
      webhookAccepts e = true) ∧
    (webhookAccepts e = true →
      ∃ payload cs oid, e = some ⟨some (PostContents.valid payload)⟩ ∧
        getField payload "current_status" = some cs ∧
        getField payload "order_id" = some oid ∧
        doPost e = successResp cs oid) ∧
    (webhookAccepts e = false →
      getField (doPost e) "success" = some (JsVal.boolv false) ∧
      ∃ msg, getField (doPost e) "error" = some (JsVal.strv msg)) := by
  rcases e with _ | ⟨pd⟩
  · exact ⟨by simp [doPost, webhookAccepts, getField_errResp_success],
      by simp [webhookAccepts],
      fun _ => ⟨getField_errResp_success _, "Missing postData",
        getField_errResp_error _⟩⟩
  rcases pd with _ | pc
  · exact ⟨by simp [doPost, webhookAccepts, getField_errResp_success],
      by simp [webhookAccepts],
      fun _ => ⟨getField_errResp_success _, "Missing postData",
        getField_errResp_error _⟩⟩
  rcases pc with _ | _ | payload
  · exact ⟨by simp [doPost, webhookAccepts, getField_errResp_success],
      by simp [webhookAccepts],
      fun _ => ⟨getField_errResp_success _, "Missing postData",
        getField_errResp_error _⟩⟩
  · exact ⟨by simp [doPost, webhookAccepts, getField_errResp_success],
      by simp [webhookAccepts],
      fun _ => ⟨getField_errResp_success _, "Invalid JSON payload",
        getField_errResp_error _⟩⟩
  rcases hev : getField payload "event" with _ | evt
  · have hd : doPost (some ⟨some (PostContents.valid payload)⟩) =
        errResp "Missing required fields" := by
      simp only [doPost, hev]
    have ha : webhookAccepts (some ⟨some (PostContents.valid payload)⟩) =
        false := by
      simp [webhookAccepts, hev]
    rw [hd, ha]
    exact ⟨by simp [getField_errResp_success], by simp,
      fun _ => ⟨getField_errResp_success _, "Missing required fields",
        getField_errResp_error _⟩⟩
  rcases hcs : getField payload "current_status" with _ | cs
  · have hd : doPost (some ⟨some (PostContents.valid payload)⟩) =
        errResp "Missing required fields" := by
      simp only [doPost, hev, hcs]
    have ha : webhookAccepts (some ⟨some (PostContents.valid payload)⟩) =
        false := by
      simp [webhookAccepts, hev, hcs]
    rw [hd, ha]
    exact ⟨by simp [getField_errResp_success], by simp,
      fun _ => ⟨getField_errResp_success _, "Missing required fields",
        getField_errResp_error _⟩⟩
  rcases hoid : getField payload "order_id" with _ | oid
  · have hd : doPost (some ⟨some (PostContents.valid payload)⟩) =
        errResp "Missing required fields" := by
      simp only [doPost, hev, hcs, hoid]
    have ha : webhookAccepts (some ⟨some (PostContents.valid payload)⟩) =
        false := by
      simp [webhookAccepts, hev, hcs, hoid, truthyO]
    rw [hd, ha]
    exact ⟨by simp [getField_errResp_success], by simp,
      fun _ => ⟨getField_errResp_success _, "Missing required fields",
        getField_errResp_error _⟩⟩
  have hD0 : doPost (some ⟨some (PostContents.valid payload)⟩) =
      (if (truthyV evt && truthyV cs && truthyV oid) = true then
        if (!isStr evt "order.status_updated") = true then
          errRespWith "Incorrect event type" "event" evt
        else if (!isStr cs "in-transit") = true then
          errRespWith "Incorrect status" "status" cs
        else successResp cs oid
      else errResp "Missing required fields") := by
    simp only [doPost, hev, hcs, hoid]
  have ha : webhookAccepts (some ⟨some (PostContents.valid payload)⟩) =
      (isStr evt "order.status_updated" && isStr cs "in-transit" &&
        truthyV oid) := by
    simp [webhookAccepts, hev, hcs, hoid, truthyO]
  by_cases h1 : (truthyV evt && truthyV cs && truthyV oid) = true
  · by_cases h2 : isStr evt "order.status_updated" = true
    · by_cases h3 : isStr cs "in-transit" = true
      · have hd : doPost (some ⟨some (PostContents.valid payload)⟩) =
            successResp cs oid := by
          rw [hD0, if_pos h1, if_neg (by simp [h2]), if_neg (by simp [h3])]
        have hto : truthyV oid = true := by
          simp only [Bool.and_eq_true] at h1
          exact h1.2
        have haT : webhookAccepts (some ⟨some (PostContents.valid payload)⟩) =
            true := by
          rw [ha, h2, h3, hto]
          rfl
        rw [hd, haT]
        refine ⟨by simp [getField_successResp_success], ?_, ?_⟩
        · intro _
          exact ⟨payload, cs, oid, rfl, hcs, hoid, rfl⟩
        · intro hcontra
          cases hcontra
      · have h3f : isStr cs "in-transit" = false := by simpa using h3
        have hd : doPost (some ⟨some (PostContents.valid payload)⟩) =
            errRespWith "Incorrect status" "status" cs := by
          rw [hD0, if_pos h1, if_neg (by simp [h2]), if_pos (by simp [h3f])]
        have haF : webhookAccepts (some ⟨some (PostContents.valid payload)⟩) =
            false := by
          rw [ha, h3f]
          simp
        rw [hd, haF]
        exact ⟨by simp [getField_errRespWith_success], by simp,
          fun _ => ⟨getField_errRespWith_success _ _ _, "Incorrect status",
            getField_errRespWith_error _ _ _⟩⟩
    · have h2f : isStr evt "order.status_updated" = false := by simpa using h2
      have hd : doPost (some ⟨some (PostContents.valid payload)⟩) =
          errRespWith "Incorrect event type" "event" evt := by
        rw [hD0, if_pos h1, if_pos (by simp [h2f])]
      have haF : webhookAccepts (some ⟨some (PostContents.valid payload)⟩) =
          false := by
        rw [ha, h2f]
        simp
      rw [hd, haF]
      exact ⟨by simp [getField_errRespWith_success], by simp,
        fun _ => ⟨getField_errRespWith_success _ _ _, "Incorrect event type",
          getField_errRespWith_error _ _ _⟩⟩
  · have hd : doPost (some ⟨some (PostContents.valid payload)⟩) =
        errResp "Missing required fields" := by
      rw [hD0, if_neg h1]
    have haF : webhookAccepts (some ⟨some (PostContents.valid payload)⟩) =
        false := by
      rw [ha]
      cases h2 : isStr evt "order.status_updated" with
      | false => simp
      | true =>
        cases h3 : isStr cs "in-transit" with
        | false => simp
        | true =>
          have te : truthyV evt = true := truthyV_of_isStr h2 (by decide)
          have tc : truthyV cs = true := truthyV_of_isStr h3 (by decide)
          cases hto : truthyV oid with
          | false => simp
          | true => exact absurd (by simp [te, tc, hto]) h1
    rw [hd, haF]
    exact ⟨by simp [getField_errResp_success], by simp,
      fun _ => ⟨getField_errResp_success _, "Missing required fields",
        getField_errResp_error _⟩⟩

/-- The cache entry just written is read back. -/
lemma cachePut_same (c : Cache) (i : String) (e : TokenEntry) :
    cachePut c i e i = some e := by
  simp [cachePut]

/-- C1: when the tenant resolves to a config (a precondition of the spec)
and the cache holds an entry with a truthy token and expiry strictly
after now, `getAccessTokenForInstance` returns exactly that cached token,
leaves the cache unchanged and performs zero token-exchange calls;
consequently, starting from a cold cache, a successful first call makes
exactly one exchange call and caches the token, and a second call within
the token lifetime (whatever the network would now answer) returns the
same token with zero further calls — one exchange call in total. -/
theorem getToken_cached_and_single_exchange
    (getConfig : String → Option InstanceConfig) (cfg : InstanceConfig)
    (inst : String) (hcfg : getConfig inst = some cfg) :
    (∀ (resp : ExchangeResp) (cache : Cache) (now : Int) (e : TokenEntry),
      cache inst = some e → e.token ≠ "" → now < e.expiresAt →
      getAccessTokenForInstance getConfig resp cache now inst =
        (TokenResult.ok e.token, cache, 0)) ∧
    (∀ (resp2 : ExchangeResp) (cache : Cache) (now1 now2 code ei : Int)
      (tok : String),
      cache inst = none → 200 ≤ code → code < 300 → tok ≠ "" →
      now1 ≤ now2 → now2 < now1 + ei * 1000 →
      getAccessTokenForInstance getConfig
          (ExchangeResp.http code (ExchangeBody.withData (some tok) (some ei)))
          cache now1 inst =
        (TokenResult.ok tok,
          cachePut cache inst ⟨tok, now1 + ei * 1000⟩, 1) ∧
      getAccessTokenForInstance getConfig resp2
          (cachePut cache inst ⟨tok, now1 + ei * 1000⟩) now2 inst =
        (TokenResult.ok tok,
          cachePut cache inst ⟨tok, now1 + ei * 1000⟩, 0)) := by
  have A : ∀ (resp : ExchangeResp) (cache : Cache) (now : Int)
      (e : TokenEntry),
      cache inst = some e → e.token ≠ "" → now < e.expiresAt →
      getAccessTokenForInstance getConfig resp cache now inst =
        (TokenResult.ok e.token, cache, 0) := by
    intro resp cache now e hc htok hexp
    simp only [getAccessTokenForInstance, hcfg, hc]
    rw [if_pos ⟨htok, hexp⟩]
  refine ⟨A, ?_⟩
  intro resp2 cache now1 now2 code ei tok hc h200 h300 htok h12 hlt
  have hei : (0 : Int) < ei := by nlinarith
  have hr1 : getAccessTokenForInstance getConfig
      (ExchangeResp.http code (ExchangeBody.withData (some tok) (some ei)))
      cache now1 inst =
      (TokenResult.ok tok, cachePut cache inst ⟨tok, now1 + ei * 1000⟩, 1) := by
    simp only [getAccessTokenForInstance, hcfg, hc, getAccessTokenExchange]
    rw [if_pos ⟨h200, h300⟩]
    have ht1 : truthyStr (some tok) = true := by simp [truthyStr, htok]
    have ht2 : truthyNum (some ei) = true := by
      simp only [truthyNum, decide_eq_true_eq]
      omega
    rw [ht1, ht2]
    simp [Option.getD]
  refine ⟨hr1, ?_⟩
  exact A resp2 (cachePut cache inst ⟨tok, now1 + ei * 1000⟩) now2
    ⟨tok, now1 + ei * 1000⟩ (cachePut_same _ _ _) htok hlt

/-- Witness for C1: a concrete second call against the freshly filled
cache returns the cached token with zero exchange calls. -/
theorem getToken_cached_and_single_exchange_witness :
    getAccessTokenForInstance (fun _ => some ⟨"u", "p", "ci", "cs"⟩)
        ExchangeResp.netError
        (cachePut (fun _ => none) "Amado" ⟨"tok1", 0 + 10 * 1000⟩)
        5000 "Amado" =
      (TokenResult.ok "tok1",
        cachePut (fun _ => none) "Amado" ⟨"tok1", 0 + 10 * 1000⟩, 0) :=
  ((getToken_cached_and_single_exchange (fun _ => some ⟨"u", "p", "ci", "cs"⟩)
    ⟨"u", "p", "ci", "cs"⟩ "Amado" rfl).2 ExchangeResp.netError
    (fun _ => none) 0 5000 200 10 "tok1" rfl (by decide) (by decide)
    (by decide) (by decide) (by decide)).2

/-- C5 counterexample: for a tenant that does not resolve to a config,
`getAccessTokenForInstance` does NOT return a failure value — the config
destructuring (which precedes the try block) throws, and the exception
escapes the function. -/
theorem getToken_unknown_tenant_cex :
    (getAccessTokenForInstance (fun _ => none) ExchangeResp.netError
      (fun _ => none) 0 "Ghost").1 = TokenResult.thrown := rfl

/-- C5 amended: for every tenantId that does not resolve to a config,
`getAccessTokenForInstance` raises an uncaught TypeError (the
destructuring of the null config happens before any guard and outside
the try block) instead of returning a failure value; no network call is
made. -/
theorem getToken_unknown_tenant_raises
    (getConfig : String → Option InstanceConfig) (resp : ExchangeResp)
    (cache : Cache) (now : Int) (inst : String)
    (h : getConfig inst = none) :
    getAccessTokenForInstance getConfig resp cache now inst =
      (TokenResult.thrown, cache, 0) := by
  simp only [getAccessTokenForInstance, h]

/-- Witness for the amended C5 theorem at a concrete unknown tenant. -/
theorem getToken_unknown_tenant_raises_witness :
    getAccessTokenForInstance (fun _ => none) ExchangeResp.netError
      (fun _ => none) 0 "Acme" =
      (TokenResult.thrown, (fun _ => none), 0) :=
  getToken_unknown_tenant_raises _ _ _ _ _ rfl

/-- C8 counterexample: if the identity endpoint answers 2xx with a
negative `expires_in` (here -1), the code accepts it (`!expiresIn` only
rejects 0), returns the token, and caches it with `expires_at` strictly
in the past: the returned token does not satisfy
`expiresAtEpochMillis > now`. -/
theorem getToken_expiry_cex :
    (getAccessTokenForInstance (fun _ => some ⟨"u", "p", "ci", "cs"⟩)
        (ExchangeResp.http 200 (ExchangeBody.withData (some "tok") (some (-1))))
        (fun _ => none) 0 "Amado").1 = TokenResult.ok "tok" ∧
    (getAccessTokenForInstance (fun _ => some ⟨"u", "p", "ci", "cs"⟩)
        (ExchangeResp.http 200 (ExchangeBody.withData (some "tok") (some (-1))))
        (fun _ => none) 0 "Amado").2.1 "Amado" =
      some ⟨"tok", 0 + -1 * 1000⟩ ∧
    ¬((0 : Int) < 0 + -1 * 1000) :=
  ⟨rfl, rfl, by decide⟩

/-- Expiry of the token produced by the exchange path, under the proviso
that any `expires_in` the endpoint supplies is positive. -/
lemma getAccessTokenExchange_expiry (resp : ExchangeResp) (cache : Cache)
    (now : Int) (inst : String) (tok : String)
    (hwf : ∀ code atk ei,
      resp = ExchangeResp.http code (ExchangeBody.withData atk (some ei)) →
      0 < ei)
    (hok : (getAccessTokenExchange resp cache now inst).1 =
      TokenResult.ok tok) :
    ∃ e : TokenEntry,
      (getAccessTokenExchange resp cache now inst).2.1 inst = some e ∧
      e.token = tok ∧ now < e.expiresAt := by
  cases resp with
  | netError => simp [getAccessTokenExchange] at hok
  | http code body =>
    by_cases h2 : 200 ≤ code ∧ code < 300
    · cases body with
      | invalid =>
        simp only [getAccessTokenExchange, if_pos h2] at hok
        cases hok
      | noData =>
        simp only [getAccessTokenExchange, if_pos h2] at hok
        cases hok
      | withData atk ei =>
        by_cases h3 : (truthyStr atk && truthyNum ei) = true
        · simp only [getAccessTokenExchange, if_pos h2, if_pos h3] at hok ⊢
          cases ei with
          | none => simp [truthyNum] at h3
          | some k =>
            have hk : 0 < k := hwf code atk k rfl
            refine ⟨⟨atk.getD "", now + k * 1000⟩, cachePut_same _ _ _, ?_, ?_⟩
            · have h4 : TokenResult.ok (atk.getD "") = TokenResult.ok tok :=
                hok
              injection h4 with h5
            · have hkk : (0 : Int) < k * 1000 := by positivity
              show now < now + k * 1000
              linarith
        · simp only [getAccessTokenExchange, if_pos h2, if_neg h3] at hok
          cases hok
    · simp only [getAccessTokenExchange, if_neg h2] at hok
      cases hok

/-- C8 amended: provided every `expires_in` the identity endpoint would
supply is positive, every token `getAccessTokenForInstance` returns has a
cache entry whose `expires_at` is strictly greater than now at the time
of return — both on the cached path (the hit test enforces it) and on
the fresh-exchange path (`now + expires_in*1000 > now`). -/
theorem getToken_returned_expiry_future
    (getConfig : String → Option InstanceConfig) (resp : ExchangeResp)
    (cache : Cache) (now : Int) (inst : String) (tok : String)
    (hwf : ∀ code atk ei,
      resp = ExchangeResp.http code (ExchangeBody.withData atk (some ei)) →
      0 < ei)
    (hok : (getAccessTokenForInstance getConfig resp cache now inst).1 =
      TokenResult.ok tok) :
    ∃ e : TokenEntry,
      (getAccessTokenForInstance getConfig resp cache now inst).2.1 inst =
        some e ∧
      e.token = tok ∧ now < e.expiresAt := by
  cases hg : getConfig inst with
  | none => simp [getAccessTokenForInstance, hg] at hok
  | some cfg =>
    cases hc : cache inst with
    | some e =>
      have hred : getAccessTokenForInstance getConfig resp cache now inst =
          (if e.token ≠ "" ∧ now < e.expiresAt then
            (TokenResult.ok e.token, cache, 0)
          else getAccessTokenExchange resp cache now inst) := by
        simp only [getAccessTokenForInstance, hg, hc]
      rw [hred] at hok ⊢
      by_cases hcond : e.token ≠ "" ∧ now < e.expiresAt
      · rw [if_pos hcond] at hok ⊢
        have h4 : TokenResult.ok e.token = TokenResult.ok tok := hok
        injection h4 with h5
        exact ⟨e, hc, h5, hcond.2⟩
      · rw [if_neg hcond] at hok ⊢
        exact getAccessTokenExchange_expiry resp cache now inst tok hwf hok
    | none =>
      have hred : getAccessTokenForInstance getConfig resp cache now inst =
          getAccessTokenExchange resp cache now inst := by
        simp only [getAccessTokenForInstance, hg, hc]
      rw [hred] at hok ⊢
      exact getAccessTokenExchange_expiry resp cache now inst tok hwf hok

/-- Witness for the amended C8 theorem: a concrete successful exchange
with expires_in = 10 yields a cache entry expiring in the future. -/
theorem getToken_returned_expiry_future_witness :
    ∃ e : TokenEntry,
      (getAccessTokenForInstance (fun _ => some ⟨"u", "p", "ci", "cs"⟩)
        (ExchangeResp.http 200 (ExchangeBody.withData (some "t") (some 10)))
        (fun _ => none) 0 "Amado").2.1 "Amado" = some e ∧
      e.token = "t" ∧ (0 : Int) < e.expiresAt :=
  getToken_returned_expiry_future (fun _ => some ⟨"u", "p", "ci", "cs"⟩)
    (ExchangeResp.http 200 (ExchangeBody.withData (some "t") (some 10)))
    (fun _ => none) 0 "Amado" "t"
    (by
      intro c a i h
      injection h with h1 h2
      injection h2 with h3 h4
      injection h4 with h5
      omega)
    rfl

/-- C2: with a server that reports total=120 on every page and serves
pages of 50, 50 and 20 records under limit=50, `searchOrders` issues
exactly 3 page requests at offsets 0, 50, 100 and returns all 120
records concatenated in the original server order. -/
theorem searchOrders_three_pages {α : Type} (server : Nat → PageResp α)
    (p1 p2 p3 : List α)
    (h0 : server 0 = ⟨200, some 120, some p1⟩)
    (h50 : server 50 = ⟨200, some 120, some p2⟩)
    (h100 : server 100 = ⟨200, some 120, some p3⟩)
    (l1 : p1.length = 50) (l2 : p2.length = 50) (l3 : p3.length = 20)
    (fuel : Nat) :
    searchOrders "Amado" server (fuel + 3) =
      some (SearchOutcome.ok (p1 ++ (p2 ++ p3)), [0, 50, 100]) := by
  have hne1 : p1.isEmpty = false := by cases p1 <;> simp_all
  have hne2 : p2.isEmpty = false := by cases p2 <;> simp_all
  have hne3 : p3.isEmpty = false := by cases p3 <;> simp_all
  have hfe : fuel + 3 = (fuel + 2) + 1 := rfl
  rw [hfe]
  simp [searchOrders, searchLoop, h0, h50, h100, searchLimit, hne1, hne2,
    hne3, List.length_append, l1, l2, l3]

/-- Witness for C2 at a concrete 3-page server. -/
theorem searchOrders_three_pages_witness :
    searchOrders "Amado"
      (fun o =>
        if o = 0 then ⟨200, some 120, some (List.replicate 50 0)⟩
        else if o = 50 then ⟨200, some 120, some (List.replicate 50 1)⟩
        else ⟨200, some 120, some (List.replicate 20 2)⟩) 3 =
      some (SearchOutcome.ok
        (List.replicate 50 0 ++ (List.replicate 50 1 ++ List.replicate 20 2)),
        [0, 50, 100]) :=
  searchOrders_three_pages _ _ _ _ rfl rfl rfl (by simp) (by simp) (by simp) 0

/-- C4: whenever the page response at the current offset is a 200 whose
record array is absent or empty, the pagination loop stops fetching after
that request and returns the records accumulated so far as a normal
result, for every accumulator and every reported total — the empty-page
check takes precedence over the total-based stopping check. -/
theorem searchLoop_empty_page_stops {α : Type} (server : Nat → PageResp α)
    (fuel offset : Nat) (acc : List α) (total : Int)
    (hcode : (server offset).code = 200)
    (hempty : (server offset).orders = none ∨
      (server offset).orders = some []) :
    searchLoop server (fuel + 1) offset acc total =
      (SearchOutcome.ok acc, [offset]) := by
  rcases hempty with he | he <;> simp [searchLoop, hcode, he]

/-- Witness for C4: an empty page ends pagination at once even though the
accumulator is well short of the reported total. -/
theorem searchLoop_empty_page_stops_witness :
    searchLoop (fun _ => (⟨200, some 7, some []⟩ : PageResp Nat)) 1 0
      [1, 2, 3] 99 = (SearchOutcome.ok [1, 2, 3], [0]) :=
  searchLoop_empty_page_stops _ 0 0 [1, 2, 3] 99 rfl (Or.inr rfl)

/-- C6 counterexample: a single page carrying 2 records while reporting
total=1 makes `searchOrders` return 2 records — the accumulated length
exceeds the most recently reported total. -/
theorem searchOrders_exceeds_total_cex :
    searchOrders "Amado" (fun _ => (⟨200, some 1, some [7, 8]⟩ : PageResp Nat))
        1 = some (SearchOutcome.ok [7, 8], [0]) ∧
    ¬((([7, 8] : List Nat).length : Int) ≤ 1) :=
  ⟨rfl, by decide⟩

/-- Loop invariant for the amended C6: against a well-behaved server
(every 200 page reports the same positive total `t` and serves at most
`min(limit, t - offset)` records), the accumulated length never exceeds
`t`; the two carried invariants are `acc.length ≤ offset` and
`acc.length ≤ t`. -/
lemma searchLoop_length_le_total {α : Type} (server : Nat → PageResp α)
    (t : Int) (ht : 0 < t)
    (hserver : ∀ o, (server o).code = 200 →
      (server o).total = some t ∧
      ∀ os, (server o).orders = some os →
        os.length ≤ searchLimit ∧
        (os.length : Int) ≤ max (t - (o : Int)) 0) :
    ∀ (fuel offset : Nat) (acc : List α) (total : Int),
      acc.length ≤ offset → (acc.length : Int) ≤ t →
      ∀ l tr,
        searchLoop server fuel offset acc total = (SearchOutcome.ok l, tr) →
        (l.length : Int) ≤ t := by
  intro fuel
  induction fuel with
  | zero =>
    intro offset acc total h1 h2 l tr hrun
    simp [searchLoop] at hrun
  | succ n ih =>
    intro offset acc total h1 h2 l tr hrun
    by_cases hcode : (server offset).code = 200
    · obtain ⟨htot, hords⟩ := hserver offset hcode
      have ht0 : ¬(t = 0) := by omega
      rcases ho : (server offset).orders with _ | os
      · simp only [searchLoop, hcode, htot, ho, if_pos rfl, if_neg ht0,
          if_true] at hrun
        simp only [Prod.mk.injEq, SearchOutcome.ok.injEq] at hrun
        rw [← hrun.1]
        exact h2
      · obtain ⟨hlen50, hlenT⟩ := hords os ho
        by_cases hemp : os.isEmpty
        · simp only [searchLoop, hcode, htot, ho, if_pos rfl, if_neg ht0,
            if_true, if_pos hemp] at hrun
          simp only [Prod.mk.injEq, SearchOutcome.ok.injEq] at hrun
          rw [← hrun.1]
          exact h2
        · have hosne : os ≠ [] := by
            cases os
            · simp at hemp
            · simp
          have hos1 : 0 < os.length := List.length_pos.mpr hosne
          have hlenT2 : (os.length : Int) ≤ t - (offset : Int) := by
            rcases max_cases (t - (offset : Int)) 0 with ⟨heq, _⟩ | ⟨heq, _⟩
            · rw [heq] at hlenT
              exact hlenT
            · rw [heq] at hlenT
              omega
          have hacc2 : ((acc ++ os).length : Int) ≤ t := by
            rw [List.length_append]
            push_cast
            omega
          simp only [searchLoop, hcode, htot, ho, if_pos rfl, if_neg ht0,
            if_true, if_neg hemp] at hrun
          by_cases hb1 : t ≤ (((acc ++ os).length : Nat) : Int)
          · rw [if_pos hb1] at hrun
            simp only [Prod.mk.injEq, SearchOutcome.ok.injEq] at hrun
            rw [← hrun.1]
            exact hacc2
          · rw [if_neg hb1] at hrun
            by_cases hb2 : t ≤ ((offset + searchLimit : Nat) : Int)
            · rw [if_pos hb2] at hrun
              simp only [Prod.mk.injEq, SearchOutcome.ok.injEq] at hrun
              rw [← hrun.1]
              exact hacc2
            · rw [if_neg hb2] at hrun
              simp only [Prod.mk.injEq] at hrun
              have hstep : acc.length + os.length ≤ offset + searchLimit := by
                have : searchLimit = 50 := rfl
                omega
              refine ih (offset + searchLimit) (acc ++ os) t ?_ hacc2 l
                (searchLoop server n (offset + searchLimit) (acc ++ os) t).2
                ?_
              · rw [List.length_append]
                exact hstep
              · exact Prod.ext hrun.1 rfl
    · simp only [searchLoop, if_neg hcode] at hrun
      simp only [Prod.mk.injEq] at hrun
      cases hrun.1

/-- C6 amended: against a well-behaved server — every 200 page response
reports the same positive total `t` and serves at most
`min(limit, t - offset)` records — the length of the sequence
`searchOrders` returns never exceeds `t`.  (As stated over arbitrary
server responses the claim fails: a page can carry more records than the
reported total, and the code appends the whole page before its
total-based check.) -/
theorem searchOrders_length_le_total {α : Type} (server : Nat → PageResp α)
    (t : Int) (ht : 0 < t)
    (hserver : ∀ o, (server o).code = 200 →
      (server o).total = some t ∧
      ∀ os, (server o).orders = some os →
        os.length ≤ searchLimit ∧
        (os.length : Int) ≤ max (t - (o : Int)) 0)
    (fuel : Nat) (l : List α) (tr : List Nat)
    (hrun : searchOrders "Amado" server fuel = some (SearchOutcome.ok l, tr)) :
    (l.length : Int) ≤ t := by
  have hrun2 : searchLoop server fuel 0 [] 0 = (SearchOutcome.ok l, tr) := by
    simpa [searchOrders] using hrun
  exact searchLoop_length_le_total server t ht hserver fuel 0 [] 0
    (by simp) (by simp; omega) l tr hrun2

/-- Witness for the amended C6 at a concrete well-behaved server with
t = 1. -/
theorem searchOrders_length_le_total_witness :
    ((([7] : List Nat).length : Int) ≤ 1) :=
  searchOrders_length_le_total
    (fun o => ⟨200, some 1, some (if o = 0 then [7] else [])⟩) 1 (by decide)
    (by
      intro o hc
      refine ⟨rfl, ?_⟩
      intro os hos
      by_cases ho : o = 0
      · subst ho
        simp only [if_pos rfl, Option.some.injEq] at hos
        subst hos
        constructor
        · simp [searchLimit]
        · simp
      · simp only [if_neg ho, Option.some.injEq] at hos
        subst hos
        constructor
        · simp [searchLimit]
        · exact le_max_right _ _)
    1 [7] [0] rfl

/-- C7 counterexample: a server that never reports a numeric total and
always returns the non-empty page [5] — `searchOrders` stops after the
single request at offset 0 (the initial total is 0, not an "unknown"
sentinel, so the `length >= total` check fires immediately), even though
the next page (offset 50) would also be non-empty. -/
theorem searchOrders_no_total_cex :
    searchOrders "Amado" (fun _ => (⟨200, none, some [5]⟩ : PageResp Nat)) 10 =
      some (SearchOutcome.ok [5], [0]) ∧
    ((fun _ => (⟨200, none, some [5]⟩ : PageResp Nat)) 50).orders =
      some [5] :=
  ⟨rfl, rfl⟩

/-- C7 amended: `totalOrders` starts at 0 (not an infinity sentinel); a
response whose total is absent or non-numeric keeps the previous value,
so when the first page reports no numeric total and returns a non-empty
array, `searchOrders` makes exactly one page request and returns just
that first page. -/
theorem searchOrders_no_total_stops_after_first_page {α : Type}
    (server : Nat → PageResp α) (os : List α) (fuel : Nat)
    (h0 : server 0 = ⟨200, none, some os⟩) (hne : os ≠ []) :
    searchOrders "Amado" server (fuel + 1) =
      some (SearchOutcome.ok os, [0]) := by
  have hie : os.isEmpty = false := by cases os <;> simp_all
  simp [searchOrders, searchLoop, h0, hie]

/-- Witness for the amended C7 at a concrete server. -/
theorem searchOrders_no_total_stops_witness :
    searchOrders "Amado" (fun _ => (⟨200, none, some [9, 9]⟩ : PageResp Nat))
      1 = some (SearchOutcome.ok [9, 9], [0]) :=
  searchOrders_no_total_stops_after_first_page _ _ 0 rfl (by decide)

/-- The retry loop makes at most `remaining` HTTP calls. -/
lemma findOrdersRetryLoop_calls_le {α : Type}
    (outcomes : Nat → AttemptOutcome α) (m : Nat) :
    ∀ (remaining attempt : Nat),
      (findOrdersRetryLoop outcomes m attempt remaining).2 ≤ remaining := by
  intro remaining
  induction remaining with
  | zero => intro attempt; simp [findOrdersRetryLoop]
  | succ n ih =>
    intro attempt
    have hih := ih (attempt + 1)
    rcases hoc : outcomes attempt with _ | ⟨code, body⟩
    · simp only [findOrdersRetryLoop, hoc]
      omega
    · cases body with
      | invalid =>
        simp only [findOrdersRetryLoop, hoc]
        split_ifs <;>
          first
            | (show (findOrdersRetryLoop outcomes m (attempt + 1) n).2 + 1 ≤
                  n + 1
               omega)
            | (show (1 : Nat) ≤ n + 1
               omega)
      | parsed dataField =>
        cases dataField with
        | some d =>
          simp only [findOrdersRetryLoop, hoc]
          split_ifs <;>
            first
              | (show (findOrdersRetryLoop outcomes m (attempt + 1) n).2 + 1 ≤
                    n + 1
                 omega)
              | (show (1 : Nat) ≤ n + 1
                 omega)
        | none =>
          simp only [findOrdersRetryLoop, hoc]
          split_ifs <;>
            first
              | (show (findOrdersRetryLoop outcomes m (attempt + 1) n).2 + 1 ≤
                    n + 1
                 omega)
              | (show (1 : Nat) ≤ n + 1
                 omega)

/-- C3: with a valid token and subdomain, the retry wrapper in
`findOrdersByContainerId` (maxRetries = 3) makes exactly 3 HTTP calls
and returns the terminal failure `null` when every attempt answers 503
(whatever the bodies are); it makes exactly 1 call and returns `null`
when the response is 400 (a 4xx answer is never retried); and against
any sequence of outcomes it makes at most 3 HTTP calls. -/
theorem findOrders_retry_behaviour {α : Type} (tok : String) (cfg : EqConfig)
    (sd : String) (htok : tok ≠ "") (hsd : cfg.subdomain = some sd)
    (hsdne : sd ≠ "") :
    (∀ bodies : Nat → RetryBody α,
      findOrdersByContainerId (some tok) (some cfg)
        (fun n => AttemptOutcome.resp 503 (bodies n)) = (none, 3)) ∧
    (∀ bodies : Nat → RetryBody α,
      findOrdersByContainerId (some tok) (some cfg)
        (fun n => AttemptOutcome.resp 400 (bodies n)) = (none, 1)) ∧
    (∀ outcomes : Nat → AttemptOutcome α,
      (findOrdersByContainerId (some tok) (some cfg) outcomes).2 ≤ 3) := by
  have hopen : ∀ (outcomes : Nat → AttemptOutcome α),
      findOrdersByContainerId (some tok) (some cfg) outcomes =
        findOrdersRetryLoop outcomes 3 1 3 := by
    intro outcomes
    simp [findOrdersByContainerId, truthyStr, htok, hsd, hsdne]
  refine ⟨?_, ?_, ?_⟩
  · intro bodies
    rw [hopen]
    simp [findOrdersRetryLoop]
  · intro bodies
    rw [hopen]
    simp [findOrdersRetryLoop]
  · intro outcomes
    rw [hopen]
    exact findOrdersRetryLoop_calls_le outcomes 3 3 1

/-- Witness for C10: at the concrete request with no event object at
all, the response has success:false and carries an error field. -/
theorem doPost_success_iff_accepts_witness :
    getField (doPost none) "success" = some (JsVal.boolv false) ∧
    ∃ msg, getField (doPost none) "error" = some (JsVal.strv msg) :=
  (doPost_success_iff_accepts none).2.2 rfl

/-- Witness for C3: three 503 responses with unparseable bodies yield
`null` after exactly 3 calls. -/
theorem findOrders_retry_behaviour_witness :
    findOrdersByContainerId (some "t") (some ⟨some "athn"⟩)
      (fun _ => AttemptOutcome.resp 503 (RetryBody.invalid : RetryBody Nat)) =
      (none, 3) :=
  (findOrders_retry_behaviour "t" ⟨some "athn"⟩ "athn" (by decide) rfl
    (by decide)).1 (fun _ => RetryBody.invalid)

end RoseRocket
